import Mathlib

/-!
Verification of the flaky-api house-image pipeline.

The Go program (package main) fetches ten pages of house records from a
paginated JSON API and downloads one image per record with a fixed pool of
worker goroutines.  This file gives a shallow embedding of the pipelined
variant (pipeHouses / downloadHouseImages / requestWithRetry) and proves or
refutes the specified properties about it.

Modelling conventions:
  - the HTTP client is an oracle `get : Nat → GetOutcome` giving, for each
    successive call the code makes, either a transport error (Go returns a
    nil response together with a non-nil error) or a response with a status
    code and a body string;
  - `log.Fatalf` (process termination) is a dedicated result constructor;
  - the handoff channel is modelled by the trace of events the producer
    performs on it (sends in order, then close), and the distribution of the
    sent records to workers by an arbitrary schedule of receivers;
  - JSON decoding (`encoding/json`, outside this repository) is an oracle
    `decode : String → Except String houses`.
-/

namespace FlakyApi

/-- Constant from the source: maximum attempt count of `requestWithRetry`. -/
def maxTries : Nat := 20

/-- Constant from the source: number of downloader goroutines. -/
def maxGoroutines : Nat := 20

/-- Constant from the source: the page endpoint format string. -/
def endpoint : String := "http://app-homevision-staging.herokuapp.com/api_project/houses?page=%d"

/-- The page URL the producer builds: `fmt.Sprintf(endpoint, i)`. -/
def pageEndpoint (i : Nat) : String :=
  "http://app-homevision-staging.herokuapp.com/api_project/houses?page=" ++ toString i

/-- The `house` struct of the source. -/
structure house where
  ID : Int
  Address : String
  Homeowner : String
  Price : Int
  PhotoURL : String
deriving Repr, DecidableEq

/-- The `houses` struct of the source (a decoded API page). -/
structure houses where
  Houses : List house
deriving Repr, DecidableEq

/-- The part of an `http.Response` the source reads: status code and body. -/
structure Response where
  StatusCode : Nat
  Body : String
deriving Repr, DecidableEq

/-- Outcome of one `client.Get` call.  Per the Go client contract the
source relies on, a call yields either a non-nil error with a nil response
(transport error) or a response with a nil error. -/
inductive GetOutcome where
  | err (msg : String)
  | ok (resp : Response)
deriving Repr, DecidableEq

/-! ## Filename derivation (worker step 1)

`fmt.Sprintf("id-%d-%s.%s", house.ID, strings.TrimRight(house.Address, "."),
filepath.Ext(house.PhotoURL))`. -/

/-- Go `strings.TrimRight(s, ".")`: strip all trailing dot characters. -/
def trimRightDots (s : String) : String :=
  String.mk ((s.data.reverse.dropWhile (fun c => c = '.')).reverse)

/-- Helper for `filepathExt`: walk the reversed character list of the path,
accumulating the suffix; stop with the extension (including its dot) at the
first dot, or with the empty extension at a path separator or the start. -/
def extFromRev (acc : List Char) : List Char → List Char
  | [] => []
  | c :: rest =>
    if c = '/' then []
    else if c = '.' then c :: acc
    else extFromRev (c :: acc) rest

/-- Go `filepath.Ext(path)`: the suffix beginning at the final dot in the
final path element, empty if there is none.  The result includes the dot. -/
def filepathExt (path : String) : String :=
  String.mk (extFromRev [] path.data.reverse)

/-- The destination filename the worker derives for a record (source lines
building `fileName`). -/
def fileName (h : house) : String :=
  "id-" ++ toString h.ID ++ "-" ++ trimRightDots h.Address ++ "." ++ filepathExt h.PhotoURL

/-- Spec-side definition, following the claim wording only (NOT the source):
the pattern `id-{id}-{trimmed address}.{extension}` with a single dot
separating the normalized address from the extension, i.e. with the
extension taken without a leading dot. -/
def extWithoutLeadingDot (url : String) : String :=
  match (filepathExt url).data with
  | '.' :: cs => String.mk cs
  | cs => String.mk cs

/-- Spec-side filename per the claim wording (single separating dot). -/
def fileNameClaimed (h : house) : String :=
  "id-" ++ toString h.ID ++ "-" ++ trimRightDots h.Address ++ "." ++ extWithoutLeadingDot h.PhotoURL

/-! ## requestWithRetry

The loop keeps one mutable `tries` counter, incremented only on a non-200
response.  `log.Fatalf` after `maxTries` non-200 responses is the `fatal`
result; a transport error breaks immediately returning the (nil) response
and the error; a 200 response breaks returning it with a nil error.  The
second component of the result counts the `client.Get` calls performed.
The structural `fuel` argument is initialised to `maxTries + 1`, which the
guard `tries >= maxTries` makes unreachable as zero. -/

/-- Result of `requestWithRetry`: process termination by `log.Fatalf`, or a
return `(nil, err)` after a transport error, or a return `(resp, nil)`. -/
inductive RetryReturn where
  | fatal (url : String)
  | retErr (msg : String)
  | retOk (resp : Response)
deriving Repr, DecidableEq

/-- The response pointer of a returned pair (`nil` on the error return). -/
def respOf : RetryReturn → Option Response
  | .fatal _ => none
  | .retErr _ => none
  | .retOk r => some r

/-- The error of a returned pair (`nil` except on the error return). -/
def errOf : RetryReturn → Option String
  | .fatal _ => none
  | .retErr e => some e
  | .retOk _ => none

/-- The retry loop of `requestWithRetry`, from a given `tries` value. -/
def requestWithRetryAux (get : Nat → GetOutcome) (url : String) : Nat → Nat → RetryReturn × Nat
  | 0, tries => (.fatal url, tries)
  | fuel + 1, tries =>
    if maxTries ≤ tries then (.fatal url, tries)
    else
      match get tries with
      | .err m => (.retErr m, tries + 1)
      | .ok resp =>
        if resp.StatusCode = 200 then (.retOk resp, tries + 1)
        else requestWithRetryAux get url fuel (tries + 1)

/-- `requestWithRetry(url)` with the given client oracle; also returns the
number of `client.Get` calls performed. -/
def requestWithRetry (get : Nat → GetOutcome) (url : String) : RetryReturn × Nat :=
  requestWithRetryAux get url (maxTries + 1) 0

/-- The value `requestWithRetry` returns (or the fatal exit), without the
instrumentation counter. -/
def requestWithRetryResult (get : Nat → GetOutcome) (url : String) : RetryReturn :=
  (requestWithRetry get url).1

/-! ## pipeHouses (the Record Producer)

The producer goroutine loops `i = 1 .. 10`; per page it calls
`requestWithRetry`, exits the process on a request error, decodes the body,
exits the process on a decode error, sends each house of the page on the
channel in order, and after the loop closes the channel.  The channel is
modelled by the trace of events performed on it. -/

/-- One event on the handoff channel. -/
inductive ChanEvent where
  | send (h : house)
  | close
deriving Repr, DecidableEq

/-- The three `log.Fatalf` sites of the source: retry-budget exhaustion
inside `requestWithRetry`, the request-error exit of `pipeHouses`, and the
decode-error exit of `pipeHouses`. -/
inductive FatalReason where
  | retryExhausted (url : String)
  | requestError (url : String) (err : String)
  | decodeError (err : String)
deriving Repr, DecidableEq

/-- The producer loop of `pipeHouses` from page `i`, with `fuel` pages left
before the loop bound (`fuel + i = 11` at the top level).  `fetch p` is the
client oracle for the calls made on page `p`; `decode` is the JSON decoder
oracle.  Result: the fatal exit, or the trace of channel events. -/
def pipeHousesFrom (fetch : Nat → Nat → GetOutcome) (decode : String → Except String houses) :
    Nat → Nat → Except FatalReason (List ChanEvent)
  | 0, _ => .ok [ChanEvent.close]
  | fuel + 1, i =>
    if 10 < i then .ok [ChanEvent.close]
    else
      match requestWithRetryResult (fetch i) (pageEndpoint i) with
      | .fatal url => .error (.retryExhausted url)
      | .retErr e => .error (.requestError (pageEndpoint i) e)
      | .retOk resp =>
        match decode resp.Body with
        | .error e => .error (.decodeError e)
        | .ok hs =>
          (pipeHousesFrom fetch decode fuel (i + 1)).map
            (fun rest => hs.Houses.map ChanEvent.send ++ rest)

/-- `pipeHouses`: the full producer run over pages 1..10. -/
def pipeHouses (fetch : Nat → Nat → GetOutcome) (decode : String → Except String houses) :
    Except FatalReason (List ChanEvent) :=
  pipeHousesFrom fetch decode 10 1

/-- Spec-side definition: the concatenation, in page order, of each page's
houses as send events, for `fuel` pages starting at page `i`. -/
def pagesSends (pages : Nat → houses) : Nat → Nat → List ChanEvent
  | _, 0 => []
  | i, fuel + 1 => (pages i).Houses.map ChanEvent.send ++ pagesSends pages (i + 1) fuel

/-- Spec-side definition: the concatenation, in page order, of each page's
houses list, for `fuel` pages starting at page `i`. -/
def pagesConcat (pages : Nat → houses) : Nat → Nat → List house
  | _, 0 => []
  | i, fuel + 1 => (pages i).Houses ++ pagesConcat pages (i + 1) fuel

/-- The houses sent on a channel trace, in order. -/
def sentHouses : List ChanEvent → List house
  | [] => []
  | .send h :: rest => h :: sentHouses rest
  | .close :: rest => sentHouses rest

/-! ## downloadHouseImages (one downloader worker)

The worker loops receiving from the channel.  Per record it derives the
filename, issues the asset GET, creates the file and copies the body; on
any of the three errors it logs and executes `return` — leaving the loop
and skipping the `wg.Done()` that only runs after the channel-closed break.
The per-record effects are an oracle `outcome : house → DownloadOutcome`;
the worker's input is the list of records it would receive from the channel
were it to keep reading. -/

/-- Outcome of one record's processing at the worker: the asset GET fails,
`os.Create` fails, `io.Copy` fails, or all three steps succeed. -/
inductive DownloadOutcome where
  | getError (e : String)
  | createError (e : String)
  | copyError (e : String)
  | success
deriving Repr, DecidableEq

/-- Observable result of one worker: the records it received, the part of
its input stream it never received, its log lines, the files it created,
and whether it executed `wg.Done()`. -/
structure WorkerResult where
  received : List house
  notReceived : List house
  logs : List String
  filesWritten : List String
  doneSignaled : Bool
deriving Repr, DecidableEq

/-- The worker loop of `downloadHouseImages` (log lines keep the logger's
newline-plus-filename prefix; the wall-clock timestamp is not modelled).
On `copyError` the file was already created by `os.Create`. -/
def downloadHouseImages (outcome : house → DownloadOutcome) : List house → WorkerResult
  | [] => ⟨[], [], [], [], true⟩
  | h :: rest =>
    let name := fileName h
    match outcome h with
    | .getError e => ⟨[h], rest, ["\n" ++ name ++ "error getting photo: " ++ e], [], false⟩
    | .createError e => ⟨[h], rest, ["\n" ++ name ++ "could not create file: " ++ e], [], false⟩
    | .copyError e => ⟨[h], rest, ["\n" ++ name ++ "error copying file contents: " ++ e], [name], false⟩
    | .success =>
      let r := downloadHouseImages outcome rest
      ⟨h :: r.received, r.notReceived, r.logs, name :: r.filesWritten, r.doneSignaled⟩

/-! ## Channel distribution, the worker pool and the coordinator -/

/-- Rendezvous semantics of the unbuffered handoff channel: at each step of
the schedule, the named worker receives the next pending record.  `recv`
accumulates each worker's received stream.  A record is handed to a worker
only when some scheduled receive meets it. -/
def distribute (n : Nat) : List (Fin n) → List house → (Fin n → List house) → (Fin n → List house)
  | _, [], recv => recv
  | [], _ :: _, recv => recv
  | w :: ws, h :: rest, recv =>
    distribute n ws rest (fun j => if j = w then recv j ++ [h] else recv j)

/-- The pool: worker `w` runs `downloadHouseImages` on its received stream. -/
def runWorkers (n : Nat) (outcome : house → DownloadOutcome) (assignment : Fin n → List house) :
    Fin n → WorkerResult :=
  fun w => downloadHouseImages outcome (assignment w)

/-- The coordinator's `wg.Wait()` returns exactly when every worker has
executed its `wg.Done()`. -/
def waitTerminates (n : Nat) (results : Fin n → WorkerResult) : Bool :=
  (List.finRange n).all fun w => (results w).doneSignaled

/-- Whole-system run: the producer either exits the process fatally, or its
sent records are distributed to the `n` workers per the receive schedule
and each worker runs its loop. -/
def systemRun (fetch : Nat → Nat → GetOutcome) (decode : String → Except String houses)
    (outcome : house → DownloadOutcome) (n : Nat) (sched : List (Fin n)) :
    Except FatalReason (Fin n → WorkerResult) :=
  match pipeHouses fetch decode with
  | .error r => .error r
  | .ok trace => .ok (runWorkers n outcome (distribute n sched (sentHouses trace) (fun _ => [])))

/-! ## Concrete inputs used by witnesses and counterexamples -/

/-- Client oracle for the C4 witness: two non-200 responses, then 200. -/
def getW4 : Nat → GetOutcome := fun i => if i < 2 then .ok ⟨500, ""⟩ else .ok ⟨200, "b"⟩

/-- Client oracle for the C5 witness: always a 500 response. -/
def getW5 : Nat → GetOutcome := fun _ => .ok ⟨500, ""⟩

/-- Client oracle for the C6 witness: a transport error on the very first
attempt. -/
def getW6 : Nat → GetOutcome := fun _ => .err "connection reset"

/-- Client oracle for the C10 witness: 200 immediately. -/
def getW10 : Nat → GetOutcome := fun _ => .ok ⟨200, ""⟩

/-- Sample record for C7: address with a trailing dot, photo URL with a
`.jpg` extension. -/
def hSample : house := ⟨7, "12 Main St.", "Bob", 5, "http://img.example.com/photo.jpg"⟩

/-- Like `hSample` but differing in the fields the filename ignores. -/
def hSample2 : house := ⟨7, "12 Main St.", "Carol", 9, "http://img.example.com/photo.jpg"⟩

/-- A record whose asset GET will fail in the worker models. -/
def hBad : house := ⟨1, "56 First Ave", "Alice", 100000, "http://img.example.com/a.jpg"⟩

/-- A record whose processing succeeds in the worker models. -/
def hGood : house := ⟨2, "34 Oak Ave", "Dan", 200000, "http://img.example.com/b.png"⟩

/-- Worker oracle: the asset GET of `hBad` fails, all else succeeds. -/
def outcomeBad : house → DownloadOutcome :=
  fun h => if h = hBad then .getError "connection refused" else .success

/-- Page-fetch oracle for the C3 witness: every call answers 200. -/
def fetchW3 : Nat → Nat → GetOutcome := fun _ _ => .ok ⟨200, "B"⟩

/-- Decoder oracle for the C3 witness: every body decodes to one house. -/
def decodeW3 : String → Except String houses := fun _ => .ok ⟨[hGood]⟩

/-- Page contents for the C3 witness. -/
def pagesW3 : Nat → houses := fun _ => ⟨[hGood]⟩

/-- Receive schedule for the C9 witness. -/
def schedW9 : List (Fin 2) := [0, 1, 0]

/-- Records for the C9 witness. -/
def recordsW9 : List house := [hBad, hGood, hSample]

/-! ## Lemmas about the retry loop -/

/-- Skipping a block of non-200 responses: if the `d` attempts starting at
`tries` all return non-200 responses and the budget is not yet exceeded,
the loop proceeds to attempt `d + tries` with `d` units of fuel consumed. -/
theorem requestWithRetryAux_skip (get : Nat → GetOutcome) (url : String) :
    ∀ (d fuel tries : Nat), d + tries ≤ maxTries →
    (∀ i, tries ≤ i → i < d + tries → ∃ resp, get i = .ok resp ∧ resp.StatusCode ≠ 200) →
    requestWithRetryAux get url (fuel + d) tries = requestWithRetryAux get url fuel (d + tries) := by
  intro d
  induction d with
  | zero => intro fuel tries _ _; simp only [Nat.add_zero, Nat.zero_add]
  | succ d ih =>
    intro fuel tries hle hnon
    have htr : ¬ (maxTries ≤ tries) := by omega
    obtain ⟨resp, hget, hst⟩ := hnon tries le_rfl (by omega)
    show requestWithRetryAux get url ((fuel + d) + 1) tries = _
    simp only [requestWithRetryAux, if_neg htr, hget, if_neg hst]
    have h2 : d + 1 + tries = d + (tries + 1) := by omega
    rw [h2]
    exact ih fuel (tries + 1) (by omega) (fun i hi1 hi2 => hnon i (by omega) (by omega))

/-- Any `retOk` result of the retry loop carries a 200 response. -/
theorem requestWithRetryAux_ok_status (get : Nat → GetOutcome) (url : String) :
    ∀ (fuel tries : Nat) (r : Response) (n : Nat),
    requestWithRetryAux get url fuel tries = (.retOk r, n) → r.StatusCode = 200 := by
  intro fuel
  induction fuel with
  | zero => intro tries r n h; simp [requestWithRetryAux] at h
  | succ fuel ih =>
    intro tries r n h
    by_cases htr : maxTries ≤ tries
    · simp only [requestWithRetryAux, if_pos htr] at h
      simp at h
    · cases hget : get tries with
      | err m => simp only [requestWithRetryAux, if_neg htr, hget] at h; simp at h
      | ok resp =>
        by_cases hst : resp.StatusCode = 200
        · simp only [requestWithRetryAux, if_neg htr, hget, if_pos hst] at h
          simp [Prod.ext_iff] at h
          rw [← h.1]
          exact hst
        · simp only [requestWithRetryAux, if_neg htr, hget, if_neg hst] at h
          exact ih (tries + 1) r n h

/-- Claim C4: if the endpoint returns a non-200 status on exactly the first
K requests (K below the maximum attempt count) and 200 OK on request K+1,
then requestWithRetry returns that successful response with a nil error
after issuing exactly K+1 total HTTP requests. -/
theorem requestWithRetry_succeeds_after_K (get : Nat → GetOutcome) (url : String)
    (K : Nat) (resp : Response) (hK : K < maxTries)
    (hnon : ∀ i, i < K → ∃ r, get i = .ok r ∧ r.StatusCode ≠ 200)
    (hok : get K = .ok resp) (hst : resp.StatusCode = 200) :
    requestWithRetry get url = (.retOk resp, K + 1) := by
  unfold requestWithRetry
  have h1 : maxTries + 1 = (maxTries + 1 - K) + K := by omega
  rw [h1, requestWithRetryAux_skip get url K (maxTries + 1 - K) 0 (by omega)
    (fun i _ h2 => hnon i (by omega))]
  have h2 : maxTries + 1 - K = (maxTries - K) + 1 := by omega
  rw [h2]
  simp only [Nat.add_zero]
  simp only [requestWithRetryAux, if_neg (show ¬ maxTries ≤ K by omega), hok, if_pos hst]

/-- Witness for C4 at K = 2. -/
theorem requestWithRetry_succeeds_after_K_witness :
    requestWithRetry getW4 "u" = (.retOk ⟨200, "b"⟩, 3) :=
  requestWithRetry_succeeds_after_K getW4 "u" 2 ⟨200, "b"⟩ (by decide)
    (fun i hi => ⟨⟨500, ""⟩, by simp [getW4, hi], by decide⟩)
    (by simp [getW4]) rfl

/-- Claim C5: if the endpoint returns a non-200 status on every attempt,
requestWithRetry triggers the fatal path upon reaching the maximum attempt
count of 20 — after exactly 20 requests, never earlier and never issuing a
21st request (the second component counts the requests issued; the oracle
is never consulted past index maxTries - 1). -/
theorem requestWithRetry_fatal_at_max (get : Nat → GetOutcome) (url : String)
    (hnon : ∀ i, i < maxTries → ∃ r, get i = .ok r ∧ r.StatusCode ≠ 200) :
    requestWithRetry get url = (.fatal url, maxTries) := by
  unfold requestWithRetry
  have h1 : maxTries + 1 = 1 + maxTries := by omega
  rw [h1, requestWithRetryAux_skip get url maxTries 1 0 (by omega)
    (fun i _ h2 => hnon i (by omega))]
  simp only [Nat.add_zero]
  show requestWithRetryAux get url (0 + 1) maxTries = _
  simp only [requestWithRetryAux, if_pos (le_refl maxTries)]

/-- Witness for C5. -/
theorem requestWithRetry_fatal_at_max_witness :
    requestWithRetry getW5 "u" = (.fatal "u", maxTries) :=
  requestWithRetry_fatal_at_max getW5 "u" (fun i _ => ⟨⟨500, ""⟩, rfl, by decide⟩)

/-- Claim C6: a transport-layer error at any attempt makes requestWithRetry
stop and return that error immediately, with zero additional attempts (the
count is the t failed-status attempts plus the erroring one), while non-200
statuses are retried — the asymmetry between the two is preserved. -/
theorem requestWithRetry_transport_aborts (get : Nat → GetOutcome) (url : String)
    (t : Nat) (m : String) (ht : t < maxTries)
    (hnon : ∀ i, i < t → ∃ r, get i = .ok r ∧ r.StatusCode ≠ 200)
    (herr : get t = .err m) :
    requestWithRetry get url = (.retErr m, t + 1) := by
  unfold requestWithRetry
  have h1 : maxTries + 1 = (maxTries + 1 - t) + t := by omega
  rw [h1, requestWithRetryAux_skip get url t (maxTries + 1 - t) 0 (by omega)
    (fun i _ h2 => hnon i (by omega))]
  have h2 : maxTries + 1 - t = (maxTries - t) + 1 := by omega
  rw [h2]
  simp only [Nat.add_zero]
  simp only [requestWithRetryAux, if_neg (show ¬ maxTries ≤ t by omega), herr]

/-- Witness for C6 at t = 0: the error is returned after the single
request, with zero additional attempts. -/
theorem requestWithRetry_transport_aborts_witness :
    requestWithRetry getW6 "u" = (.retErr "connection reset", 1) :=
  requestWithRetry_transport_aborts getW6 "u" 0 "connection reset" (by decide)
    (fun i hi => absurd hi (by omega)) rfl

/-- Claim C10: whenever requestWithRetry returns without terminating the
process and with a nil error, the response it hands back has status exactly
200 (the retOk return); and whenever it returns a non-nil error (the
retErr return, which models the Go contract that a failed client.Get
yields a nil response), the returned response pointer is nil. -/
theorem requestWithRetry_return_invariant (get : Nat → GetOutcome) (url : String)
    (res : RetryReturn) (n : Nat) (h : requestWithRetry get url = (res, n)) :
    (∀ r, res = .retOk r → r.StatusCode = 200) ∧
    (∀ e, res = .retErr e → respOf res = none ∧ errOf res = some e) := by
  constructor
  · intro r hr
    rw [hr] at h
    exact requestWithRetryAux_ok_status get url (maxTries + 1) 0 r n h
  · intro e he
    rw [he]
    exact ⟨rfl, rfl⟩

/-- Witness for C10. -/
theorem requestWithRetry_return_invariant_witness :
    (Response.mk 200 "").StatusCode = 200 :=
  (requestWithRetry_return_invariant getW10 "u" (.retOk ⟨200, ""⟩) 1 rfl).1 ⟨200, ""⟩ rfl

/-! ## Lemmas about the producer -/

/-- The producer loop from page `i` with `fuel + i = 11`: if every page in
range fetches with a 200 response and decodes, the trace is the
concatenation of the pages' sends followed by the single close. -/
theorem pipeHousesFrom_trace (fetch : Nat → Nat → GetOutcome) (decode : String → Except String houses)
    (pages : Nat → houses) (resp : Nat → Response)
    (hfetch : ∀ p, 1 ≤ p → p ≤ 10 → requestWithRetryResult (fetch p) (pageEndpoint p) = .retOk (resp p))
    (hdec : ∀ p, 1 ≤ p → p ≤ 10 → decode (resp p).Body = .ok (pages p)) :
    ∀ fuel i, 1 ≤ i → i + fuel = 11 →
    pipeHousesFrom fetch decode fuel i = .ok (pagesSends pages i fuel ++ [ChanEvent.close]) := by
  intro fuel
  induction fuel with
  | zero =>
    intro i h1 h2
    simp [pipeHousesFrom, pagesSends]
  | succ fuel ih =>
    intro i h1 h2
    have hle : ¬ (10 < i) := by omega
    simp only [pipeHousesFrom, if_neg hle, hfetch i h1 (by omega), hdec i h1 (by omega)]
    rw [ih (i + 1) (by omega) (by omega)]
    simp [pagesSends, Except.map, List.append_assoc]

/-- A block of send events contains no close event. -/
theorem count_close_map_send (l : List house) :
    (l.map ChanEvent.send).count ChanEvent.close = 0 := by
  rw [List.count_eq_zero]
  intro hmem
  obtain ⟨a, _, ha⟩ := List.mem_map.mp hmem
  simp at ha

/-- The page sends contain no close event. -/
theorem pagesSends_count_close (pages : Nat → houses) :
    ∀ fuel i, (pagesSends pages i fuel).count ChanEvent.close = 0 := by
  intro fuel
  induction fuel with
  | zero => intro i; rfl
  | succ fuel ih =>
    intro i
    simp [pagesSends, List.count_append, ih, count_close_map_send]

/-- Reading the houses back off a block of send events. -/
theorem sentHouses_append_sends (l : List house) (rest : List ChanEvent) :
    sentHouses (l.map ChanEvent.send ++ rest) = l ++ sentHouses rest := by
  induction l with
  | nil => rfl
  | cons h t ih => simp [sentHouses, ih]

/-- The houses sent by the page sends are the pages' concatenation. -/
theorem sentHouses_pagesSends (pages : Nat → houses) :
    ∀ fuel i rest, sentHouses (pagesSends pages i fuel ++ rest) =
      pagesConcat pages i fuel ++ sentHouses rest := by
  intro fuel
  induction fuel with
  | zero => intro i rest; simp [pagesSends, pagesConcat]
  | succ fuel ih =>
    intro i rest
    simp [pagesSends, pagesConcat, List.append_assoc, sentHouses_append_sends, ih]

/-- Claim C3: for the page range 1..10 with no fatal error, the producer's
channel trace is the concatenation, in page order and within-page listed
order, of each page's decoded houses as sends — no record dropped or
duplicated — with the channel closed exactly once, after the last page's
records. -/
theorem pipeHouses_trace (fetch : Nat → Nat → GetOutcome) (decode : String → Except String houses)
    (pages : Nat → houses) (resp : Nat → Response)
    (hfetch : ∀ p, 1 ≤ p → p ≤ 10 → requestWithRetryResult (fetch p) (pageEndpoint p) = .retOk (resp p))
    (hdec : ∀ p, 1 ≤ p → p ≤ 10 → decode (resp p).Body = .ok (pages p)) :
    pipeHouses fetch decode = .ok (pagesSends pages 1 10 ++ [ChanEvent.close]) ∧
    (pagesSends pages 1 10 ++ [ChanEvent.close]).count ChanEvent.close = 1 ∧
    sentHouses (pagesSends pages 1 10 ++ [ChanEvent.close]) = pagesConcat pages 1 10 := by
  refine ⟨?_, ?_, ?_⟩
  · exact pipeHousesFrom_trace fetch decode pages resp hfetch hdec 10 1 (by omega) (by omega)
  · simp [List.count_append, pagesSends_count_close]
  · simp [sentHouses_pagesSends, sentHouses]

/-- Witness for C3, with constant oracles: every page fetches at once and
decodes to the single-house page `⟨[hGood]⟩`. -/
theorem pipeHouses_trace_witness :
    pipeHouses fetchW3 decodeW3 = .ok (pagesSends pagesW3 1 10 ++ [ChanEvent.close]) ∧
    (pagesSends pagesW3 1 10 ++ [ChanEvent.close]).count ChanEvent.close = 1 ∧
    sentHouses (pagesSends pagesW3 1 10 ++ [ChanEvent.close]) = pagesConcat pagesW3 1 10 :=
  pipeHouses_trace fetchW3 decodeW3 pagesW3 (fun _ => ⟨200, "B"⟩)
    (fun _p _ _ => rfl) (fun _p _ _ => rfl)

/-! ## The worker pool and the error-handling claims -/

/-- Claim C1 (refuted by the code, which contradicts the spec and the
function's own comment): on a per-record error the worker is meant to log,
abandon only that record and return to the receive step.  The source
instead executes `return`, so the worker stops receiving entirely (the
rest of its stream is never received) and skips `wg.Done()`.  Evaluated at
a channel holding `[hBad, hGood]` where `hBad`'s asset GET fails. -/
theorem downloadHouseImages_stops_on_error :
    (downloadHouseImages outcomeBad [hBad, hGood]).received = [hBad] ∧
    (downloadHouseImages outcomeBad [hBad, hGood]).notReceived = [hGood] ∧
    (downloadHouseImages outcomeBad [hBad, hGood]).doneSignaled = false ∧
    (downloadHouseImages outcomeBad [hBad, hGood]).logs =
      ["\n" ++ fileName hBad ++ "error getting photo: connection refused"] := by
  decide

/-- Claim C2 (refuted by the code): a worker that hits a per-record error
never signals the wait group, so the coordinator's `wg.Wait()` does not
terminate.  Evaluated with the full pool of 20 workers where worker 0
receives the one record `hBad` whose asset GET fails. -/
theorem wgWait_hangs_on_error :
    waitTerminates maxGoroutines
      (runWorkers maxGoroutines outcomeBad
        (distribute maxGoroutines [⟨0, by decide⟩] [hBad] (fun _ => []))) = false ∧
    (runWorkers maxGoroutines outcomeBad
      (distribute maxGoroutines [⟨0, by decide⟩] [hBad] (fun _ => []))
      ⟨0, by decide⟩).doneSignaled = false := by
  decide

/-- The extension `filepath.Ext` computes is empty or begins with the dot. -/
theorem extFromRev_shape : ∀ (l acc : List Char),
    extFromRev acc l = [] ∨ ∃ cs, extFromRev acc l = '.' :: cs := by
  intro l
  induction l with
  | nil => intro acc; left; rfl
  | cons c rest ih =>
    intro acc
    by_cases h1 : c = '/'
    · left; simp [extFromRev, h1]
    · by_cases h2 : c = '.'
      · right; exact ⟨acc, by simp [extFromRev, h1, h2]⟩
      · simpa [extFromRev, h1, h2] using ih (c :: acc)

/-- Claim C7 counterexample: the derived filename does NOT have a single
dot separating the normalized address from the extension.  `filepath.Ext`
includes the leading dot, so the `%s.%s` format yields two consecutive
dots: at `hSample` the code derives `id-7-12 Main St..jpg` where the
claim's single-dot pattern gives `id-7-12 Main St.jpg`. -/
theorem fileName_single_dot_false :
    fileName hSample = "id-7-12 Main St..jpg" ∧
    fileNameClaimed hSample = "id-7-12 Main St.jpg" ∧
    fileName hSample ≠ fileNameClaimed hSample := by
  decide

/-- Claim C7 as amended: the destination filename is exactly
`id-{id}-{address with trailing dots stripped}` followed by one literal dot
followed by `filepath.Ext(photoURL)` — where that extension itself begins
with a dot whenever it is nonempty, giving two consecutive dots before the
extension letters — and the derivation is a deterministic function of the
record's id, address and asset URL alone. -/
theorem fileName_shape (h : house) :
    fileName h = "id-" ++ toString h.ID ++ "-" ++ trimRightDots h.Address ++ "." ++ filepathExt h.PhotoURL ∧
    (filepathExt h.PhotoURL = "" ∨ ∃ cs, (filepathExt h.PhotoURL).data = '.' :: cs) ∧
    (∀ g : house, g.ID = h.ID → g.Address = h.Address → g.PhotoURL = h.PhotoURL →
      fileName g = fileName h) := by
  refine ⟨rfl, ?_, ?_⟩
  · rcases extFromRev_shape h.PhotoURL.data.reverse [] with he | ⟨cs, he⟩
    · left; simp [filepathExt, he]
    · right; exact ⟨cs, by simp [filepathExt, he]⟩
  · intro g h1 h2 h3
    simp [fileName, h1, h2, h3]

/-- Witness for C7 as amended: determinism at a concrete pair of records
differing only in homeowner and price. -/
theorem fileName_shape_witness : fileName hSample2 = fileName hSample :=
  (fileName_shape hSample).2.2 hSample2 rfl rfl rfl

/-- Claim C8: the process terminates fatally exactly when the producer path
does — the three `log.Fatalf` sites being retry-budget exhaustion on
non-200 responses, a page-fetch transport error, and a JSON decode failure
(the three constructors of `FatalReason`) — and no per-record asset
outcome can produce a fatal result, whatever the workers encounter. -/
theorem fatal_only_from_producer :
    (∀ (fetch : Nat → Nat → GetOutcome) (decode : String → Except String houses)
       (outcome : house → DownloadOutcome) (n : Nat) (sched : List (Fin n)) (r : FatalReason),
       systemRun fetch decode outcome n sched = .error r ↔ pipeHouses fetch decode = .error r) ∧
    (∀ r : FatalReason, (∃ u, r = .retryExhausted u) ∨
       (∃ u e, r = .requestError u e) ∨ (∃ e, r = .decodeError e)) := by
  constructor
  · intro fetch decode outcome n sched r
    cases hp : pipeHouses fetch decode with
    | error e => simp [systemRun, hp]
    | ok trace => simp [systemRun, hp]
  · intro r
    cases r with
    | retryExhausted u => exact Or.inl ⟨u, rfl⟩
    | requestError u e => exact Or.inr (Or.inl ⟨u, e, rfl⟩)
    | decodeError e => exact Or.inr (Or.inr ⟨e, rfl⟩)

/-! ## The channel handoff -/

/-- Distribution preserves per-house counts: however the schedule
interleaves the receives, the deliveries to the workers account for every
pending record exactly, on top of what the workers already hold. -/
theorem distribute_count (n : Nat) (x : house) :
    ∀ (records : List house) (sched : List (Fin n)) (recv : Fin n → List house),
    records.length ≤ sched.length →
    (∑ w : Fin n, ((distribute n sched records recv) w).count x) =
      records.count x + ∑ w : Fin n, ((recv w).count x) := by
  intro records
  induction records with
  | nil =>
    intro sched recv _
    cases sched with
    | nil => simp [distribute]
    | cons w ws => simp [distribute]
  | cons h rest ih =>
    intro sched recv hlen
    cases sched with
    | nil => simp at hlen
    | cons w ws =>
      simp only [distribute]
      rw [ih ws (fun j => if j = w then recv j ++ [h] else recv j) (by simpa using hlen)]
      have hterm : ∀ j : Fin n, (((fun j => if j = w then recv j ++ [h] else recv j) j).count x) =
          (recv j).count x + (if j = w then List.count x [h] else 0) := by
        intro j
        by_cases hj : j = w
        · simp [hj, List.count_append]
        · simp [hj]
      have hsum : (∑ j : Fin n, (((fun j => if j = w then recv j ++ [h] else recv j) j).count x)) =
          (∑ j : Fin n, ((recv j).count x)) + List.count x [h] := by
        simp only [hterm]
        rw [Finset.sum_add_distrib, Finset.sum_ite_eq' Finset.univ w (fun _ => List.count x [h])]
        simp
      rw [hsum]
      simp only [List.count_cons, List.count_nil]
      omega

/-- Claim C9: under the rendezvous channel semantics, every record the
producer emits is received by exactly one worker — the per-house delivery
counts across all workers equal the emitted counts (no loss, no
duplication), and a record emitted once lands in exactly one worker's
stream. -/
theorem handoff_exactly_once (n : Nat) (sched : List (Fin n)) (records : List house)
    (hlen : records.length ≤ sched.length) :
    (∀ x : house, (∑ w : Fin n, ((distribute n sched records (fun _ => []) w).count x)) =
       records.count x) ∧
    (∀ x : house, records.count x = 1 →
       ∃! w : Fin n, x ∈ distribute n sched records (fun _ => []) w) := by
  have hcnt : ∀ x : house, (∑ w : Fin n, ((distribute n sched records (fun _ => []) w).count x)) =
      records.count x := by
    intro x
    rw [distribute_count n x records sched (fun _ => []) hlen]
    simp
  refine ⟨hcnt, ?_⟩
  intro x hx
  have h1 := hcnt x
  rw [hx] at h1
  have hex : ∃ w : Fin n, x ∈ distribute n sched records (fun _ => []) w := by
    by_contra hc
    push_neg at hc
    have hzero : (∑ w : Fin n, ((distribute n sched records (fun _ => []) w).count x)) = 0 :=
      Finset.sum_eq_zero (fun w _ => List.count_eq_zero.mpr (hc w))
    omega
  obtain ⟨w0, hw0⟩ := hex
  refine ⟨w0, hw0, ?_⟩
  intro w1 hw1
  by_contra hne
  have hc0 : 0 < (distribute n sched records (fun _ => []) w0).count x :=
    List.count_pos_iff.mpr hw0
  have hc1 : 0 < (distribute n sched records (fun _ => []) w1).count x :=
    List.count_pos_iff.mpr hw1
  have hpair : (∑ w ∈ ({w1, w0} : Finset (Fin n)),
      ((distribute n sched records (fun _ => []) w).count x)) ≤
      ∑ w : Fin n, ((distribute n sched records (fun _ => []) w).count x) :=
    Finset.sum_le_sum_of_subset (Finset.subset_univ _)
  rw [Finset.sum_pair hne] at hpair
  omega

/-- Witness for C9: two workers, three distinct records, schedule long
enough to drain the channel. -/
theorem handoff_exactly_once_witness :
    (∀ x : house, (∑ w : Fin 2, ((distribute 2 schedW9 recordsW9 (fun _ => []) w).count x)) =
       recordsW9.count x) ∧
    (∀ x : house, recordsW9.count x = 1 →
       ∃! w : Fin 2, x ∈ distribute 2 schedW9 recordsW9 (fun _ => []) w) :=
  handoff_exactly_once 2 schedW9 recordsW9 (by decide)

end FlakyApi
